import Mathlib

/-!
# Verification of pg_replication_activity's replication topology poller

Shallow embedding of `src/pgreplicationactivity/pgconnection.py`:
the LSN codec (`lsn_to_xlogbyte`), the version resolver
(`PGConnection.get_num_version`), the per-host sampler
(`PGConnection.current_time_lag_lsn`), the recovery-config memoization
(`PGConnection.recoveryconf`), per-host classification
(`PGConnection.get_standby_info`), descriptor expansion
(`PGMultiConnection.connect`) and cross-host aggregation
(`PGMultiConnection.get_standby_info`).

Python dynamic values are modelled explicitly: fallible code returns
`Except PyErr`, Python `None` becomes `Option`, machine-independent Python
integers become `Nat`/`Int`, floats and timestamps become `ℚ`.  String
splitting in the source always uses a single-character separator, so it is
modelled by `splitOnChar` over the character list of the string, matching
Python `str.split(sep)` semantics (in particular `"".split(sep) = [""]`).
-/

set_option autoImplicit false

namespace PGRA

/-- Python exception kinds that the embedded code can raise or catch.
`operationalError` stands for `psycopg2.OperationalError` (connection-level
failure), the remaining constructors for the built-in Python exceptions
appearing in `pgconnection.py`. -/
inductive PyErr where
  | operationalError
  | attributeError
  | valueError
  | zeroDivisionError
  | exception (msg : String)
  deriving DecidableEq, Repr

instance exceptDecEq {ε α : Type} [DecidableEq ε] [DecidableEq α] :
    DecidableEq (Except ε α) := fun x y =>
  match x, y with
  | .error a, .error b =>
    if h : a = b then isTrue (by rw [h])
    else isFalse (fun he => h (by cases he; rfl))
  | .ok a, .ok b =>
    if h : a = b then isTrue (by rw [h])
    else isFalse (fun he => h (by cases he; rfl))
  | .error _, .ok _ => isFalse (fun he => Except.noConfusion he)
  | .ok _, .error _ => isFalse (fun he => Except.noConfusion he)

/-- Split a character list on a single separator character, mirroring Python
`str.split(c)`: `splitOnChar c [] = [[]]` just as `"".split(c) == [""]`. -/
def splitOnChar (c : Char) : List Char → List (List Char)
  | [] => [[]]
  | x :: xs =>
    let r := splitOnChar c xs
    if x = c then [] :: r
    else
      match r with
      | [] => [[x]]
      | h :: t => (x :: h) :: t

/-- A hexadecimal digit as accepted by Python `int(s, 16)` for plain digits. -/
def isHexChar (c : Char) : Bool :=
  (48 ≤ c.toNat && c.toNat ≤ 57) || (97 ≤ c.toNat && c.toNat ≤ 102) ||
    (65 ≤ c.toNat && c.toNat ≤ 70)

/-- Numeric value of a hexadecimal digit. -/
def hexDigitVal (c : Char) : Nat :=
  if 48 ≤ c.toNat && c.toNat ≤ 57 then c.toNat - 48
  else if 97 ≤ c.toNat && c.toNat ≤ 102 then c.toNat - 87
  else c.toNat - 55

/-- Value of a string of hexadecimal digits (most significant first). -/
def hexVal (l : List Char) : Nat :=
  l.foldl (fun a c => a * 16 + hexDigitVal c) 0

/-- Python `int(s, 16)` on the plain hexadecimal-digit subset: a non-empty
all-hex-digit string evaluates; anything else raises `ValueError`.  (Python
additionally tolerates surrounding whitespace, a sign and an `0x` prefix;
none of those forms occurs in the claims and they are not modelled.) -/
def pyIntHex (l : List Char) : Except PyErr Nat :=
  if l ≠ [] ∧ l.all isHexChar then .ok (hexVal l) else .error .valueError

/-- Embedding of `lsn_to_xlogbyte` (pgconnection.py lines 543-560).
The Python code does `xlogid, xrecoff = lsn.split('/')` guarded by
`except AttributeError: return 0`, so a `None` argument (no `.split`
attribute) yields the sentinel `0`, while a string that does not split into
exactly two parts raises `ValueError` (unpack mismatch), and a part that is
not a hex numeral raises `ValueError` from `int(part, 16)`; neither is
caught.  A valid LSN yields `xlogid * 2^32 + xrecoff`. -/
def lsn_to_xlogbyte (lsn : Option String) : Except PyErr Nat :=
  match lsn with
  | none => .ok 0
  | some s =>
    match splitOnChar '/' s.data with
    | [xlogid, xrecoff] =>
      match pyIntHex xlogid with
      | .error e => .error e
      | .ok a =>
        match pyIntHex xrecoff with
        | .error e => .error e
        | .ok b => .ok (a * 2 ^ 32 + b)
    | _ => .error .valueError

/-- Python `max(list)`: raises `ValueError` on an empty sequence, otherwise
returns the maximum element. -/
def pyMax {α : Type} [LinearOrder α] : List α → Except PyErr α
  | [] => .error .valueError
  | x :: xs => .ok (xs.foldl max x)

/-- Python `round(x, n)` modelled over `ℚ`.  (CPython rounds binary floats
with banker's rounding; the claims under verification never depend on the
tie-breaking rule, and both the embedded code and the spec formulas use this
same function, keeping the comparison faithful.) -/
def pyRound (q : ℚ) (n : ℕ) : ℚ :=
  ((round (q * 10 ^ n) : ℤ) : ℚ) / 10 ^ n

theorem foldl_max_self_or_mem {α : Type} [LinearOrder α] (xs : List α) (x : α) :
    xs.foldl max x = x ∨ xs.foldl max x ∈ xs := by
  induction xs generalizing x with
  | nil => exact Or.inl rfl
  | cons y ys ih =>
    have hfold : List.foldl max x (y :: ys) = List.foldl max (max x y) ys := rfl
    rcases ih (max x y) with h | h
    · rcases max_choice x y with hm | hm
      · exact Or.inl (by rw [hfold, h, hm])
      · refine Or.inr ?_
        rw [hfold, h, hm]
        exact List.mem_cons_self y ys
    · exact Or.inr (List.mem_cons_of_mem _ (by rw [hfold]; exact h))

theorem le_foldl_max {α : Type} [LinearOrder α] (xs : List α) (x : α) :
    x ≤ xs.foldl max x ∧ ∀ y ∈ xs, y ≤ xs.foldl max x := by
  induction xs generalizing x with
  | nil => exact ⟨le_refl x, by simp⟩
  | cons z zs ih =>
    obtain ⟨h1, h2⟩ := ih (max x z)
    refine ⟨le_trans (le_max_left x z) h1, ?_⟩
    intro y hy
    rcases List.mem_cons.mp hy with rfl | hy
    · exact le_trans (le_max_right x y) h1
    · exact h2 y hy

/-- Characterization of a successful Python `max`. -/
theorem pyMax_ok {α : Type} [LinearOrder α] {l : List α} {m : α}
    (h : pyMax l = .ok m) : m ∈ l ∧ ∀ y ∈ l, y ≤ m := by
  cases l with
  | nil => simp [pyMax] at h
  | cons x xs =>
    simp only [pyMax, Except.ok.injEq] at h
    subst h
    constructor
    · rcases foldl_max_self_or_mem xs x with h | h
      · rw [h]; exact List.mem_cons_self x xs
      · exact List.mem_cons_of_mem _ h
    · intro y hy
      rcases List.mem_cons.mp hy with rfl | hy
      · exact (le_foldl_max xs y).1
      · exact (le_foldl_max xs x).2 y hy

theorem pyMax_ok_of_ne_nil {α : Type} [LinearOrder α] {l : List α} (h : l ≠ []) :
    ∃ m, pyMax l = .ok m := by
  cases l with
  | nil => exact absurd rfl h
  | cons x xs => exact ⟨xs.foldl max x, rfl⟩

/-! ## Version resolver (`PGConnection.get_num_version`, lines 323-372) -/

/-- Maximal leading run of decimal digits, with the rest of the input:
the behaviour of a greedy `[0-9]+` in the version regexes. -/
def takeDigits : List Char → List Char × List Char
  | [] => ([], [])
  | c :: cs =>
    if c.isDigit then
      let (d, r) := takeDigits cs
      (c :: d, r)
    else ([], c :: cs)

/-- Drop an expected literal from the front of the input, returning the rest
when it is present (the anchored literal parts of the regexes). -/
def dropPfx : List Char → List Char → Option (List Char)
  | [], l => some l
  | _ :: _, [] => none
  | p :: ps, c :: cs => if c = p then dropPfx ps cs else none

/-- The `^(PostgreSQL|EnterpriseDB) ` part shared by both version regexes. -/
def pgNameRest (s : List Char) : Option (List Char) :=
  match dropPfx "PostgreSQL ".data s with
  | some r => some r
  | none => dropPfx "EnterpriseDB ".data s

/-- The optional patch group `(?:\.([0-9]+))?` of the release pattern:
present exactly when a dot followed by at least one digit comes next. -/
def primaryPatch : List Char → Option (List Char)
  | c :: r4 =>
    if c = '.' then
      (if (takeDigits r4).1 = [] then none else some (takeDigits r4).1)
    else none
  | [] => none

/-- The `\.([0-9]+)(?:\.([0-9]+))?` tail of the release pattern, after the
major digits: requires a dot and a non-empty minor digit run. -/
def primaryTail : List Char → List Char → Option (List Char × List Char × Option (List Char))
  | d1, c :: r2 =>
    if c = '.' then
      (if (takeDigits r2).1 = [] then none
       else some (d1, (takeDigits r2).1, primaryPatch (takeDigits r2).2))
    else none
  | _, [] => none

/-- The release pattern after the server-name prefix: a non-empty major
digit run, then `primaryTail`. -/
def primaryAfterName (r0 : List Char) : Option (List Char × List Char × Option (List Char)) :=
  if (takeDigits r0).1 = [] then none
  else primaryTail (takeDigits r0).1 (takeDigits r0).2

/-- The release pattern
`^(PostgreSQL|EnterpriseDB) ([0-9]+)\.([0-9]+)(?:\.([0-9]+))?` applied with
`re.match` (prefix match): returns the matched digit texts of groups 2-4.
Greedy digit runs are maximal runs because a digit can never match the
literal dot that follows. -/
def parsePrimary (s : List Char) : Option (List Char × List Char × Option (List Char)) :=
  (pgNameRest s).bind primaryAfterName

/-- The `devel|beta[0-9]+|rc[0-9]+` tail of the development pattern. -/
def devTailOk (l : List Char) : Bool :=
  match dropPfx "devel".data l with
  | some _ => true
  | none =>
    match dropPfx "beta".data l with
    | some r => !(takeDigits r).1.isEmpty
    | none =>
      match dropPfx "rc".data l with
      | some r => !(takeDigits r).1.isEmpty
      | none => false

/-- The `(?:\.([0-9]+))?(devel|beta[0-9]+|rc[0-9]+)` tail of the
development pattern, after the major digits: the optional minor group
matches when a dot and a non-empty digit run come next (otherwise the
development suffix must start right here, where the regex engine resumes
after the optional group fails). -/
def secondaryTail : List Char → List Char → Option (List Char × Option (List Char))
  | d1, c :: r2 =>
    if c = '.' then
      (if (takeDigits r2).1 = [] then
        (if devTailOk (c :: r2) then some (d1, none) else none)
       else if devTailOk (takeDigits r2).2 then some (d1, some (takeDigits r2).1)
       else none)
    else if devTailOk (c :: r2) then some (d1, none) else none
  | d1, [] => if devTailOk [] then some (d1, none) else none

/-- The development pattern after the server-name prefix. -/
def secondaryAfterName (r0 : List Char) : Option (List Char × Option (List Char)) :=
  if (takeDigits r0).1 = [] then none
  else secondaryTail (takeDigits r0).1 (takeDigits r0).2

/-- The development pattern
`^(PostgreSQL|EnterpriseDB) ([0-9]+)(?:\.([0-9]+))?(devel|beta[0-9]+|rc[0-9]+)`
applied with `re.match`: returns groups 2 and 3. -/
def parseSecondary (s : List Char) : Option (List Char × Option (List Char)) :=
  (pgNameRest s).bind secondaryAfterName

/-- Value of a string of decimal digits, Python `int(s)` on plain digits. -/
def digitsToNat (l : List Char) : Nat :=
  l.foldl (fun a c => a * 10 + (c.toNat - 48)) 0

/-- The padding step of `get_num_version`: Python prepends the character `0`
to the matched component text exactly when its integer value is below 10
(`if int(res.group(k)) < 10: rmatch += '0'`). -/
def padComponent (d : List Char) : List Char :=
  if digitsToNat d < 10 then '0' :: d else d

/-- Embedding of `PGConnection.get_num_version` (lines 323-372), as a function
of the `SELECT version()` text.  The release pattern is tried first; on a
match, the numeric version is the decimal reading of
`major ++ pad(minor) ++ (pad(patch) | "00")`.  Otherwise the development
pattern is tried, yielding `major ++ (pad(minor) | "00") ++ "00"`.  If
neither matches the Python code raises
`Exception('Undefined PostgreSQL version.')`.  (The `self.pg_num_version`
memoization and the `psycopg2.OperationalError` early return around the SQL
query concern connection state, not the parse, and are outside this model.) -/
def get_num_version (s : String) : Except PyErr Nat :=
  match parsePrimary s.data with
  | some (d1, d2, d3) =>
    .ok (digitsToNat (d1 ++ padComponent d2 ++
      (match d3 with
       | some p => padComponent p
       | none => ['0', '0'])))
  | none =>
    match parseSecondary s.data with
    | some (d1, m) =>
      .ok (digitsToNat (d1 ++
        (match m with
         | some d2 => padComponent d2
         | none => ['0', '0']) ++ ['0', '0']))
    | none => .error (.exception "Undefined PostgreSQL version.")

/-! ## Recovery configuration (`PGConnection.recoveryconf`, lines 374-391) -/

/-- The tri-state `self.__recoveryconf` cache: Python `None` (not yet tried),
Python `False` (unavailable) or a dict of key/value pairs. -/
inductive RCVal where
  | noneV
  | falseV
  | dict (d : List (String × String))
  deriving DecidableEq, Repr

/-- Python truthiness of the cache value: a dict is truthy iff non-empty;
`None` and `False` are falsy. -/
def rcTruthy : RCVal → Bool
  | .noneV => false
  | .falseV => false
  | .dict d => !d.isEmpty

/-- Python dict insertion: overwrite the value if the key is present,
otherwise append the pair. -/
def dictInsert (d : List (String × String)) (k v : String) : List (String × String) :=
  match d with
  | [] => [(k, v)]
  | (k0, v0) :: t => if k0 = k then (k, v) :: t else (k0, v0) :: dictInsert t k v

/-- Python dict `.get(k)`: value of the first binding of `k`. -/
def dictGet (d : List (String × String)) (k : String) : Option String :=
  match d with
  | [] => none
  | (k0, v0) :: t => if k0 = k then some v0 else dictGet t k

/-- Python `str.isspace` members relevant to `str.strip()`: space, tab,
newline, carriage return, vertical tab, form feed. -/
def isPySpace (c : Char) : Bool :=
  c = ' ' ∨ c = '\t' ∨ c = '\n' ∨ c = '\r' ∨ c = Char.ofNat 11 ∨ c = Char.ofNat 12

/-- Python `str.strip()`: drop whitespace from both ends. -/
def stripWS (l : List Char) : List Char :=
  ((l.dropWhile isPySpace).reverse.dropWhile isPySpace).reverse

/-- Parsing loop of `recoveryconf`: split the file on newlines, strip each
line, keep lines containing `=`, split each once on `=` (Python
`line.split('=', 1)`, modelled as a full split re-joined on the tail) and
strip the key and the value (lines 382-388). -/
def parseRC (content : String) : List (String × String) :=
  (splitOnChar '\n' content.data).foldl
    (fun d lineChars =>
      let line := stripWS lineChars
      if line.contains '=' then
        match splitOnChar '=' line with
        | [] => d
        | k :: rest =>
          dictInsert d (String.mk (stripWS k))
            (String.mk (stripWS (List.intercalate ['='] rest)))
      else d)
    []

/-- Embedding of `PGConnection.recoveryconf` (lines 374-391).  Inputs are the
outcome of the `is_super()` probe, the outcome of the
`pg_read_file('recovery.conf')` query and the current cache value; the result
is the returned value, the new cache value and whether the privileged
`pg_read_file` query was executed this call.  The guard
`if self.__recoveryconf or self.__recoveryconf is False` returns the cache
when it is a non-empty dict (truthy) or the `False` marker; a `None` cache
and an empty-dict cache both fall through.  A non-superuser returns `None`
without touching the cache.  An `OperationalError` from the file read is
caught and caches `False`; any other error propagates. -/
def recoveryconf (isSuper : Except PyErr Bool) (fileRes : Except PyErr String)
    (st : RCVal) : Except PyErr (RCVal × RCVal × Bool) :=
  if rcTruthy st ∨ st = .falseV then .ok (st, st, false)
  else
    match isSuper with
    | .error e => .error e
    | .ok sup =>
      if !sup then .ok (.noneV, st, false)
      else
        match fileRes with
        | .ok content => .ok (.dict (parseRC content), .dict (parseRC content), true)
        | .error .operationalError => .ok (.falseV, .falseV, true)
        | .error e => .error e

/-! ## Per-host classification (`PGConnection.get_standby_info`, lines 283-313) -/

/-- A dynamically typed Python value as stored in the standby-info dict
fields `recovery_conf` and `standby_mode`: a boolean, `None`, or a string
such as the `'?'` sentinel. -/
inductive PyVal where
  | b (v : Bool)
  | noneV
  | str (s : String)
  deriving DecidableEq, Repr

/-- Embedding of `confbool_to_bool` (lines 562-571): lower-case the text,
delete every single- and double-quote character (`RE_QUOTE.sub`), then test
membership in the literal lists; an unrecognized value yields `None`. -/
def confbool_to_bool (v : String) : Option Bool :=
  let cb := String.mk ((v.data.map Char.toLower).filter
    (fun c => !(c = Char.ofNat 34 ∨ c = Char.ofNat 39)))
  if cb = "on" ∨ cb = "true" ∨ cb = "yes" ∨ cb = "1" then some true
  else if cb = "off" ∨ cb = "false" ∨ cb = "no" ∨ cb = "0" then some false
  else none

/-- Python `str.strip(chars)` for the character set of `strip("\"' ")`:
double-quote, single-quote and space removed from both ends. -/
def stripQS (s : String) : String :=
  let mem := fun c => c = Char.ofNat 34 ∨ c = Char.ofNat 39 ∨ c = ' '
  String.mk (((s.data.dropWhile mem).reverse.dropWhile mem).reverse)

/-- Oracle for one `PGConnection` during classification: the outcomes of the
`is_standby()` probe, of `get_upstream()`, of `recoveryconf()` and the
`hostid()` value.  Each is an `Except` so a probe can fail with any Python
exception, exactly as the corresponding call can in the source. -/
structure SHEnv where
  hostid : Option String
  isStandby : Except PyErr Bool
  upstream : Except PyErr String
  rcRes : Except PyErr RCVal

/-- The per-host record built by `PGConnection.get_standby_info`. -/
structure StandbyInfo where
  host : Option String
  role : String
  upstream : String
  recovery_conf : PyVal
  standby_mode : PyVal
  replication_slot : String
  deriving DecidableEq, Repr

/-- The first `try` block of `PGConnection.get_standby_info` (lines
289-298): classify as standby (with its upstream) or master; a
`psycopg2.OperationalError` from either probe is caught and degrades to
`role = 'Down'`, `upstream = ''`; any other exception propagates. -/
def classifyRole (isStandby : Except PyErr Bool) (upstream : Except PyErr String) :
    Except PyErr (String × String) :=
  match isStandby with
  | .ok true =>
    match upstream with
    | .ok u => .ok ("standby", u)
    | .error .operationalError => .ok ("Down", "")
    | .error e => .error e
  | .ok false => .ok ("master", "")
  | .error .operationalError => .ok ("Down", "")
  | .error e => .error e

/-- The second `try` block of `PGConnection.get_standby_info` (lines
299-312), producing `(recovery_conf, standby_mode, replication_slot)`: a
truthy (non-empty) dict sets `recovery_conf = True`, reads `standby_mode`
(where a missing key makes `confbool_to_bool(None)` raise `AttributeError`,
caught by the `except`, which then overwrites all three fields) and
`primary_slot_name`; the literal `False` marker sets the false/empty
fields; `None` and the empty dict (neither truthy nor `== False`, since
`{} == False` is false in Python) set the `'?'` sentinels.
`AttributeError` and `OperationalError` raised in the block are caught and
set the false/empty fields; other exceptions propagate. -/
def rcFields (rcRes : Except PyErr RCVal) : Except PyErr (PyVal × PyVal × String) :=
  match rcRes with
  | .ok rc =>
    if rcTruthy rc then
      match rc with
      | .dict d =>
        (match dictGet d "standby_mode" with
         | some v =>
           .ok (PyVal.b true,
             (match confbool_to_bool v with
              | some bv => PyVal.b bv
              | none => PyVal.noneV),
             stripQS ((dictGet d "primary_slot_name").getD ""))
         | none => .ok (PyVal.b false, PyVal.b false, ""))
      | _ => .ok (PyVal.b false, PyVal.b false, "")
    else if rc = .falseV then .ok (PyVal.b false, PyVal.b false, "")
    else .ok (PyVal.str "?", PyVal.str "?", "?")
  | .error .operationalError => .ok (PyVal.b false, PyVal.b false, "")
  | .error .attributeError => .ok (PyVal.b false, PyVal.b false, "")
  | .error e => .error e

/-- Embedding of `PGConnection.get_standby_info` (lines 283-313): the two
`try` blocks in sequence, assembling the per-host record. -/
def pg_get_standby_info (env : SHEnv) : Except PyErr StandbyInfo :=
  match classifyRole env.isStandby env.upstream with
  | .error e => .error e
  | .ok roleUp =>
    match rcFields env.rcRes with
    | .error e => .error e
    | .ok rcsm =>
      .ok { host := env.hostid, role := roleUp.1, upstream := roleUp.2,
            recovery_conf := rcsm.1, standby_mode := rcsm.2.1,
            replication_slot := rcsm.2.2 }

/-! ## Point-in-time sample (`PGConnection.current_time_lag_lsn`, lines 242-281) -/

/-- One row returned by the version- and role-dependent sampling query:
`now`, the textual LSN (possibly SQL NULL) and `lag_sec`.  The four SQL
variants (lines 250-269) differ only in the server functions used; their
result shape is this row, which the model takes as an input. -/
structure SampleRow where
  now : ℚ
  lsn : Option String
  lag_sec : ℤ
  deriving DecidableEq, Repr

/-- The dict returned by `current_time_lag_lsn`. -/
structure TimeLagLsn where
  now : Option ℚ
  lsn : Option String
  lsn_int : ℕ
  lag_sec : Option ℤ
  wal_sec : ℚ
  deriving DecidableEq, Repr

/-- The null sample `{'now': None, 'lsn_int': 0, 'lsn': None,
'lag_sec': None, 'wal_sec': 0}` (lines 248 and 281). -/
def nullTLL : TimeLagLsn :=
  { now := none, lsn := none, lsn_int := 0, lag_sec := none, wal_sec := 0 }

/-- Embedding of `PGConnection.current_time_lag_lsn` (lines 242-281).
Inputs: the `connected()` probe result, the query row (`none` when the query
returned no rows), the `time.time()` wall clock of this call and the
retained `self.__wal_per_sec` pair.  Output: the sample dict and the new
retained pair.  An unreachable server or an empty result returns the null
sample and leaves the retained pair untouched.  On a successful sample the
new absolute LSN is computed by `lsn_to_xlogbyte` (whose `ValueError` on a
malformed text propagates); `wal_sec` is `0` when no pair is retained and
otherwise `round((newlsn - oldlsn) / (newepoch - oldepoch) / 2**20, 3)`,
which in Python raises `ZeroDivisionError` when the two clock readings are
identical; finally the retained pair is overwritten. -/
def current_time_lag_lsn (connected : Bool) (row : Option SampleRow) (epoch : ℚ)
    (st : Option (ℕ × ℚ)) : Except PyErr (TimeLagLsn × Option (ℕ × ℚ)) :=
  if !connected then .ok (nullTLL, st)
  else
    match row with
    | some r =>
      match lsn_to_xlogbyte r.lsn with
      | .error e => .error e
      | .ok newlsn =>
      match st with
      | some (oldlsn, oldepoch) =>
        if epoch = oldepoch then .error .zeroDivisionError
        else
          .ok ({ now := some r.now, lsn := r.lsn, lsn_int := newlsn,
                 lag_sec := some r.lag_sec,
                 wal_sec := pyRound (((newlsn : ℚ) - (oldlsn : ℚ)) /
                   (epoch - oldepoch) / 2 ^ 20) 3 },
               some (newlsn, epoch))
      | none =>
        .ok ({ now := some r.now, lsn := r.lsn, lsn_int := newlsn,
               lag_sec := some r.lag_sec, wal_sec := 0 },
             some (newlsn, epoch))
    | none => .ok (nullTLL, st)

/-! ## Descriptor expansion (`PGMultiConnection.connect`, lines 411-483) -/

/-- A member `PGConnection` as constructed in the expansion loop: the
descriptor with this member's host and port substituted. -/
structure Conn where
  host : String
  port : String
  deriving DecidableEq, Repr

/-- The `self.__conn` registry of `PGMultiConnection`: member identity to
connection, in registration order. -/
abbrev Registry := List (String × Conn)

/-- The registered member identities. -/
def regKeys (r : Registry) : List String := r.map (fun e => e.1)

/-- Registry lookup by member identity (first binding). -/
def regFind (r : Registry) (id : String) : Option Conn :=
  match r with
  | [] => none
  | (k, c) :: t => if k = id then some c else regFind t id

/-- The member identity computed in the loop body (lines 439-443): normally
`new_con.hostid()` — modelled by the `resolve` oracle, which may consult the
server — and, when constructing the connection raises
`psycopg2.OperationalError` (`resolve` returns `none`), the fallback
`'host:port'` format string. -/
def memberId (resolve : String → String → Option String) (h p : String) : String :=
  match resolve h p with
  | some id => id
  | none => h ++ ":" ++ p

/-- Lines 444-447: `if hostid in self.__conn:` discard the new connection,
`else` register it. -/
def registerConn (reg : Registry) (id : String) (c : Conn) : Registry :=
  if id ∈ regKeys reg then reg else reg ++ [(id, c)]

/-- The `for i, _ in enumerate(hosts)` loop (lines 435-447) over matched
host/port pairs. -/
def expandLoop (resolve : String → String → Option String)
    (pairs : List (String × String)) (reg : Registry) : Registry :=
  pairs.foldl (fun r hp => registerConn r (memberId resolve hp.1 hp.2) ⟨hp.1, hp.2⟩) reg

/-- The broadcast step of lines 431-432: `if len(hosts) > 1 and
len(ports) == 1: ports = ports * len(hosts)`. -/
def broadcastPorts (hosts ports : List String) : List String :=
  if hosts.length > 1 ∧ ports.length = 1
    then hosts.map (fun _ => ports.headD "") else ports

/-- Lines 431-448 of `PGMultiConnection.connect`, after the host string has
been split: broadcast a singleton port list over multiple hosts, raise
`PGConnectionException('you cannot specify less or more ports than hosts')`
on a length mismatch — before the loop, so the registry is unchanged — and
otherwise run the registration loop. -/
def connectHosts (resolve : String → String → Option String)
    (hosts ports : List String) (reg : Registry) : Registry × Option PyErr :=
  if hosts.length ≠ (broadcastPorts hosts ports).length then
    (reg, some (.exception "you cannot specify less or more ports than hosts"))
  else (expandLoop resolve (hosts.zip (broadcastPorts hosts ports)) reg, none)

/-- Result of `PGMultiConnection.connect`: normal completion, a raised
configuration error (with the registry as it stood when the exception was
raised), or the no-host/service branch of lines 449-483, which the claims do
not touch and which is therefore only marked, not expanded. -/
inductive ConnectOutcome where
  | expanded (reg : Registry)
  | raised (reg : Registry) (e : PyErr)
  | serviceCase
  deriving DecidableEq, Repr

/-- Embedding of the descriptor-expansion part of `PGMultiConnection.connect`
(lines 411-448).  `ports` defaults through the `PGPORT` environment variable
to `'5432'` and is comma-split; `hosts` defaults through `PGHOST` and, when
truthy, is comma-split and expanded by `connectHosts`. -/
def multiconnect (resolve : String → String → Option String)
    (dsnHost dsnPort pghost pgport : Option String) (reg : Registry) : ConnectOutcome :=
  let portStr := dsnPort.getD (pgport.getD "5432")
  let ports := (splitOnChar ',' portStr.data).map String.mk
  let hostStr := dsnHost.getD (pghost.getD "")
  if hostStr = "" then .serviceCase
  else
    let hosts := (splitOnChar ',' hostStr.data).map String.mk
    match connectHosts resolve hosts ports reg with
    | (reg2, none) => .expanded reg2
    | (reg2, some e) => .raised reg2 e

/-! ## Cross-host aggregation (`PGMultiConnection.get_standby_info`, lines 485-514) -/

/-- A per-host record after the two query phases: the classification dict
(with `host` overwritten by the registry key, line 492) updated in place
with the timing sample (line 499). -/
structure MergedInfo where
  host : String
  role : String
  upstream : String
  recovery_conf : PyVal
  standby_mode : PyVal
  replication_slot : String
  now : Option ℚ
  lsn : Option String
  lsn_int : ℕ
  lag_sec : Option ℤ
  wal_sec : ℚ
  deriving DecidableEq, Repr

/-- The `lag_mb` derived field: a number of mebibytes or the literal `'?'`
sentinel string. -/
inductive LagMB where
  | mb (q : ℚ)
  | unknown
  deriving DecidableEq, Repr

/-- A record after aggregation added the `drift` and `lag_mb` keys. -/
structure AggInfo extends MergedInfo where
  drift : Option ℚ
  lag_mb : LagMB
  deriving DecidableEq, Repr

/-- The merge of lines 490-499: classification record, `host` overwritten
with the registry key, updated with the sample fields. -/
def mergeInfo (key : String) (si : StandbyInfo) (t : TimeLagLsn) : MergedInfo :=
  { host := key, role := si.role, upstream := si.upstream,
    recovery_conf := si.recovery_conf, standby_mode := si.standby_mode,
    replication_slot := si.replication_slot,
    now := t.now, lsn := t.lsn, lsn_int := t.lsn_int, lag_sec := t.lag_sec,
    wal_sec := t.wal_sec }

/-- The list fed to `max` for `max_now` (line 502):
`[li['now'] for li in ret if li['now']]` — `now` is a datetime or `None`, and
a datetime is always truthy, so the filter keeps exactly the non-null
entries. -/
def nowList (pre : List MergedInfo) : List ℚ :=
  pre.filterMap (fun li => li.now)

/-- The list fed to `max` for `max_lsn` (line 503):
`[li['lsn_int'] for li in ret if li['lsn_int']]` — an `int` is truthy iff it
is non-zero, so the filter keeps exactly the non-zero absolute offsets. -/
def lsnList (pre : List MergedInfo) : List ℕ :=
  pre.filterMap (fun li => if li.lsn_int ≠ 0 then some li.lsn_int else none)

/-- The per-record assignment of lines 505-513: `drift = max_now - now` for
a truthy `now` else `None`; `lag_mb = round((max_lsn - lsn_int)/2**20, 2)`
for a truthy (non-zero) `lsn_int` else the `'?'` sentinel. -/
def mkAgg (maxNow : ℚ) (maxLsn : ℕ) (li : MergedInfo) : AggInfo :=
  { toMergedInfo := li,
    drift := li.now.map (fun n => maxNow - n),
    lag_mb := if li.lsn_int ≠ 0 then
        LagMB.mb (pyRound (((maxLsn : ℚ) - (li.lsn_int : ℚ)) / 2 ^ 20) 2)
      else LagMB.unknown }

/-- The aggregation step of `PGMultiConnection.get_standby_info` (lines
500-513): compute `max_now` and `max_lsn` with Python `max` — which raises
`ValueError` on an empty candidate list — then assign `drift` and `lag_mb`
to every record. -/
def aggregate (pre : List MergedInfo) : Except PyErr (List AggInfo) :=
  match pyMax (nowList pre) with
  | .error e => .error e
  | .ok maxNow =>
    match pyMax (lsnList pre) with
    | .error e => .error e
    | .ok maxLsn => .ok (pre.map (mkAgg maxNow maxLsn))

/-- Embedding of `PGMultiConnection.get_standby_info` (lines 485-514) given
the per-connection results of the two query phases. -/
def multi_get_standby_info (samples : List (String × StandbyInfo × TimeLagLsn)) :
    Except PyErr (List AggInfo) :=
  aggregate (samples.map (fun s => mergeInfo s.1 s.2.1 s.2.2))

/-! ## Concrete fixtures used by witnesses and counterexamples -/

/-- A canonically written version component: a single digit, or two digits
without a leading zero — phrased through `digitsToNat` so that the component
text and its value determine each other. -/
def canonComp (d : List Char) : Prop :=
  (d.length = 1 ∧ digitsToNat d < 10) ∨
    (d.length = 2 ∧ 10 ≤ digitsToNat d ∧ digitsToNat d < 100)

instance (d : List Char) : Decidable (canonComp d) := by
  unfold canonComp; infer_instance

/-- A degraded host record as produced for an unreachable member: null
sample fields merged into a `Down` classification. -/
def downMerged (key : String) : MergedInfo :=
  { host := key, role := "Down", upstream := "",
    recovery_conf := .b false, standby_mode := .b false, replication_slot := "",
    now := none, lsn := none, lsn_int := 0, lag_sec := none, wal_sec := 0 }

/-- A healthy host record for fixtures: reachable, with the given sample. -/
def upMerged (key role : String) (now : ℚ) (lsn : String) (lsnInt : ℕ) : MergedInfo :=
  { host := key, role := role, upstream := "",
    recovery_conf := .b false, standby_mode := .b false, replication_slot := "",
    now := some now, lsn := some lsn, lsn_int := lsnInt, lag_sec := some 0,
    wal_sec := 0 }

/-- Whether a `lag_mb` value is the `'?'` sentinel. -/
def isUnknown : LagMB → Bool
  | .unknown => true
  | .mb _ => false

/-- Two-host round in which the second host samples the valid LSN `0/0`. -/
def aggCexPre : List MergedInfo :=
  [upMerged "10.0.0.1:5432" "master" 0 "0/1" 1,
   upMerged "10.0.0.2:5432" "standby" 0 "0/0" 0]

/-- Healthy two-host round used as an aggregation witness. -/
def aggPreW : List MergedInfo :=
  [upMerged "10.0.0.5:5432" "master" 5 "0/200000" 2097152,
   upMerged "10.0.0.6:5432" "standby" 0 "0/100000" 1048576]

/-- Two-host round whose second host has absolute offset 0. -/
def zeroPreW : List MergedInfo :=
  [upMerged "10.0.1.1:5432" "master" 3 "1/0" 4294967296,
   upMerged "10.0.1.2:5432" "standby" 2 "0/0" 0]

/-- A one-entry registry fixture. -/
def regW : Registry := [("a:1", { host := "a", port := "1" })]

/-- Environment of a host whose probes all fail at the connection level. -/
def envDownW : SHEnv :=
  { hostid := some "10.0.0.9:5432", isStandby := .error .operationalError,
    upstream := .error .operationalError, rcRes := .error .operationalError }

/-- Environment of a healthy primary whose recovery-config read fails. -/
def envUpW : SHEnv :=
  { hostid := some "10.0.0.8:5432", isStandby := .ok false,
    upstream := .ok "", rcRes := .error .operationalError }

/-- The record `envUpW` classifies to. -/
def recUpW : StandbyInfo :=
  { host := some "10.0.0.8:5432", role := "master", upstream := "",
    recovery_conf := .b false, standby_mode := .b false, replication_slot := "" }

/-! ## Helper lemmas -/

theorem splitOnChar_eq_single {c : Char} {l : List Char} (h : c ∉ l) :
    splitOnChar c l = [l] := by
  induction l with
  | nil => rfl
  | cons x xs ih =>
    have hx : ¬ x = c := fun he => h (he ▸ List.mem_cons_self x xs)
    have hxs : c ∉ xs := fun hm => h (List.mem_cons_of_mem _ hm)
    simp [splitOnChar, hx, ih hxs]

theorem splitOnChar_append {c : Char} {l r : List Char} (h : c ∉ l) :
    splitOnChar c (l ++ c :: r) = l :: splitOnChar c r := by
  induction l with
  | nil => simp [splitOnChar]
  | cons x xs ih =>
    have hx : ¬ x = c := fun he => h (he ▸ List.mem_cons_self x xs)
    have hxs : c ∉ xs := fun hm => h (List.mem_cons_of_mem _ hm)
    simp [splitOnChar, hx, ih hxs]

theorem isHexChar_ne_slash {c : Char} (h : isHexChar c = true) : c ≠ '/' := by
  intro he
  subst he
  simp [isHexChar] at h

theorem digits_foldl_acc (l : List Char) (acc : ℕ) :
    l.foldl (fun a c => a * 10 + (c.toNat - 48)) acc
      = acc * 10 ^ l.length + digitsToNat l := by
  induction l generalizing acc with
  | nil => simp [digitsToNat]
  | cons c cs ih =>
    have h1 : (c :: cs).foldl (fun a c => a * 10 + (c.toNat - 48)) acc
        = cs.foldl (fun a c => a * 10 + (c.toNat - 48)) (acc * 10 + (c.toNat - 48)) := rfl
    have h2 : digitsToNat (c :: cs)
        = cs.foldl (fun a c => a * 10 + (c.toNat - 48)) (0 * 10 + (c.toNat - 48)) := rfl
    rw [h1, h2, ih, ih]
    simp [List.length_cons]
    ring

theorem digitsToNat_append (a b : List Char) :
    digitsToNat (a ++ b) = digitsToNat a * 10 ^ b.length + digitsToNat b := by
  have h : digitsToNat (a ++ b)
      = b.foldl (fun x c => x * 10 + (c.toNat - 48)) (digitsToNat a) := by
    unfold digitsToNat
    exact List.foldl_append ..
  rw [h, digits_foldl_acc]

theorem padComponent_canon {d : List Char} (h : canonComp d) :
    (padComponent d).length = 2 ∧ digitsToNat (padComponent d) = digitsToNat d
      ∧ digitsToNat d < 100 := by
  rcases h with ⟨h1, h2⟩ | ⟨h1, h2, h3⟩
  · unfold padComponent
    rw [if_pos h2]
    refine ⟨by simp [List.length_cons]; omega, ?_, by omega⟩
    have : digitsToNat ('0' :: d) = digitsToNat (['0'] ++ d) := rfl
    rw [this, digitsToNat_append]
    simp [digitsToNat]
  · unfold padComponent
    rw [if_neg (by omega)]
    exact ⟨h1, rfl, h3⟩

theorem filterMap_set {α β : Type} (f : α → Option β) (l : List α) (i : ℕ) (a : α)
    (h : ∀ hi : i < l.length, f (l.get ⟨i, hi⟩) = f a) :
    (l.set i a).filterMap f = l.filterMap f := by
  induction l generalizing i with
  | nil => rfl
  | cons x xs ih =>
    cases i with
    | zero =>
      have hx : f x = f a := h (by simp)
      simp only [List.set_cons_zero, List.filterMap_cons]
      rw [hx]
    | succ n =>
      simp only [List.set_cons_succ, List.filterMap_cons]
      rw [ih n (fun hn => h (by simpa using Nat.succ_lt_succ hn))]

theorem lsnList_mem_ne_zero {pre : List MergedInfo} {x : ℕ}
    (h : x ∈ lsnList pre) : x ≠ 0 := by
  obtain ⟨li, _, hf⟩ := List.mem_filterMap.mp h
  by_cases hz : li.lsn_int ≠ 0
  · rw [if_pos hz] at hf
    cases hf
    exact hz
  · rw [if_neg hz] at hf
    cases hf

theorem aggregate_ok_elim {pre : List MergedInfo} {recs : List AggInfo}
    (h : aggregate pre = .ok recs) :
    ∃ mN mL, pyMax (nowList pre) = .ok mN ∧ pyMax (lsnList pre) = .ok mL ∧
      recs = pre.map (mkAgg mN mL) := by
  unfold aggregate at h
  cases hN : pyMax (nowList pre) with
  | error e => rw [hN] at h; cases h
  | ok mN =>
    rw [hN] at h
    cases hL : pyMax (lsnList pre) with
    | error e => rw [hL] at h; cases h
    | ok mL =>
      rw [hL] at h
      exact ⟨mN, mL, rfl, rfl, (Except.ok.inj h).symm⟩

theorem nowList_append_null {pre : List MergedInfo} {nullr : MergedInfo}
    (hn : nullr.now = none) : nowList (pre ++ [nullr]) = nowList pre := by
  simp [nowList, List.filterMap_append, hn]

theorem lsnList_append_null {pre : List MergedInfo} {nullr : MergedInfo}
    (hz : nullr.lsn_int = 0) : lsnList (pre ++ [nullr]) = lsnList pre := by
  simp [lsnList, List.filterMap_append, hz]

theorem regFind_append_left {r : Registry} {id : String} {c : Conn}
    (h : regFind r id = some c) (r2 : Registry) :
    regFind (r ++ r2) id = some c := by
  induction r with
  | nil => cases h
  | cons e t ih =>
    obtain ⟨k, v⟩ := e
    by_cases hk : k = id
    · simpa [regFind, hk] using (by simpa [regFind, hk] using h : v = c)
    · simp only [List.cons_append, regFind, if_neg hk] at h ⊢
      exact ih h

theorem regKeys_append (r1 r2 : Registry) :
    regKeys (r1 ++ r2) = regKeys r1 ++ regKeys r2 := by
  simp [regKeys]

theorem registerConn_nodup {reg : Registry} {id : String} {c : Conn}
    (h : (regKeys reg).Nodup) : (regKeys (registerConn reg id c)).Nodup := by
  unfold registerConn
  by_cases hm : id ∈ regKeys reg
  · rw [if_pos hm]; exact h
  · rw [if_neg hm]
    have hk : regKeys (reg ++ [(id, c)]) = regKeys reg ++ [id] := by simp [regKeys]
    rw [hk]
    refine List.Nodup.append h (List.nodup_singleton id) ?_
    intro a ha hb
    exact hm ((List.mem_singleton.mp hb) ▸ ha)

theorem registerConn_find {reg : Registry} {id0 : String} {c0 : Conn}
    (h : regFind reg id0 = some c0) (id : String) (c : Conn) :
    regFind (registerConn reg id c) id0 = some c0 := by
  unfold registerConn
  by_cases hm : id ∈ regKeys reg
  · rw [if_pos hm]; exact h
  · rw [if_neg hm]; exact regFind_append_left h _

theorem expandLoop_nodup_find (resolve : String → String → Option String)
    (pairs : List (String × String)) :
    ∀ reg : Registry,
      ((regKeys reg).Nodup → (regKeys (expandLoop resolve pairs reg)).Nodup) ∧
      (∀ id c, regFind reg id = some c →
        regFind (expandLoop resolve pairs reg) id = some c) := by
  induction pairs with
  | nil => exact fun reg => ⟨fun h => h, fun _ _ h => h⟩
  | cons hp t ih =>
    intro reg
    have step : expandLoop resolve (hp :: t) reg
        = expandLoop resolve t
            (registerConn reg (memberId resolve hp.1 hp.2) ⟨hp.1, hp.2⟩) := rfl
    rw [step]
    exact ⟨fun h => (ih _).1 (registerConn_nodup h),
           fun id c h => (ih _).2 id c (registerConn_find h _ _)⟩

theorem expandLoop_fresh (resolve : String → String → Option String)
    (pairs : List (String × String)) :
    ∀ reg : Registry,
      (∀ pr ∈ pairs, memberId resolve pr.1 pr.2 ∉ regKeys reg) →
      (pairs.map (fun pr => memberId resolve pr.1 pr.2)).Nodup →
      expandLoop resolve pairs reg
        = reg ++ pairs.map (fun pr => (memberId resolve pr.1 pr.2, ⟨pr.1, pr.2⟩)) := by
  induction pairs with
  | nil => intro reg _ _; simp [expandLoop]
  | cons hp t ih =>
    intro reg hdisj hnd
    have hid : memberId resolve hp.1 hp.2 ∉ regKeys reg :=
      hdisj hp (List.mem_cons_self hp t)
    have step : expandLoop resolve (hp :: t) reg
        = expandLoop resolve t
            (registerConn reg (memberId resolve hp.1 hp.2) ⟨hp.1, hp.2⟩) := rfl
    rw [step]
    unfold registerConn
    rw [if_neg hid]
    have hnd2 : (memberId resolve hp.1 hp.2
          ∉ t.map fun pr => memberId resolve pr.1 pr.2)
        ∧ (t.map fun pr => memberId resolve pr.1 pr.2).Nodup := by
      rw [List.map_cons] at hnd
      exact List.nodup_cons.mp hnd
    rw [ih _ ?_ hnd2.2]
    · simp
    · intro pr hpr
      rw [regKeys_append]
      simp only [List.mem_append]
      rintro (hin | hin)
      · exact hdisj pr (List.mem_cons_of_mem _ hpr) hin
      · have : memberId resolve pr.1 pr.2 = memberId resolve hp.1 hp.2 := by
          simpa [regKeys] using hin
        exact hnd2.1 (this ▸ List.mem_map_of_mem (fun pr => memberId resolve pr.1 pr.2) hpr)

theorem zip_const {α β : Type} (l : List α) (b : β) :
    l.zip (l.map (fun _ => b)) = l.map (fun a => (a, b)) := by
  induction l with
  | nil => rfl
  | cons x xs ih =>
    show (x, b) :: xs.zip (xs.map fun _ => b) = (x, b) :: xs.map (fun a => (a, b))
    rw [ih]

/-! ## Claim theorems -/

/-- C6 (amended): for every valid LSN text `<hex>/<hex>`, `lsn_to_xlogbyte`
returns `left * 2^32 + right` where `left` and `right` are the hexadecimal
values of the two parts; for a null input it returns the sentinel `0`; but a
non-null input that does not split into exactly two parts raises
`ValueError` instead of returning the sentinel. -/
theorem lsn_encode_spec (l r : List Char)
    (hl : l ≠ [] ∧ l.all isHexChar = true) (hr : r ≠ [] ∧ r.all isHexChar = true) :
    lsn_to_xlogbyte (some (String.mk (l ++ '/' :: r)))
      = .ok (hexVal l * 2 ^ 32 + hexVal r) ∧
    lsn_to_xlogbyte none = .ok 0 ∧
    (∀ s : String, (splitOnChar '/' s.data).length ≠ 2 →
      lsn_to_xlogbyte (some s) = .error .valueError) := by
  refine ⟨?_, rfl, ?_⟩
  · have hnl : '/' ∉ l := fun hm => by
      have h2 := List.all_eq_true.mp hl.2 _ hm
      simp [isHexChar] at h2
    have hnr : '/' ∉ r := fun hm => by
      have h2 := List.all_eq_true.mp hr.2 _ hm
      simp [isHexChar] at h2
    have hsplit : splitOnChar '/' (String.mk (l ++ '/' :: r)).data = [l, r] := by
      rw [show (String.mk (l ++ '/' :: r)).data = l ++ '/' :: r from rfl]
      rw [splitOnChar_append hnl, splitOnChar_eq_single hnr]
    have hil : pyIntHex l = .ok (hexVal l) := by
      unfold pyIntHex
      rw [if_pos ⟨hl.1, hl.2⟩]
    have hir : pyIntHex r = .ok (hexVal r) := by
      unfold pyIntHex
      rw [if_pos ⟨hr.1, hr.2⟩]
    simp only [lsn_to_xlogbyte, hsplit, hil, hir]
  · intro s hs
    rcases hsp : splitOnChar '/' s.data with _ | ⟨a, _ | ⟨b, _ | ⟨c, t⟩⟩⟩
    · simp only [lsn_to_xlogbyte, hsp]
    · simp only [lsn_to_xlogbyte, hsp]
    · exact absurd (by rw [hsp]; rfl) hs
    · simp only [lsn_to_xlogbyte, hsp]

/-- C6 witness: the valid LSN `16/B374D848` at concrete input. -/
theorem lsn_encode_spec_witness :
    lsn_to_xlogbyte (some (String.mk (['1', '6'] ++ '/' ::
        ['B', '3', '7', '4', 'D', '8', '4', '8'])))
      = .ok (hexVal ['1', '6'] * 2 ^ 32
          + hexVal ['B', '3', '7', '4', 'D', '8', '4', '8']) :=
  (lsn_encode_spec ['1', '6'] ['B', '3', '7', '4', 'D', '8', '4', '8']
    ⟨by decide, by decide⟩ ⟨by decide, by decide⟩).1

/-- C6 counterexample: the non-null unparseable input `garbage` raises
`ValueError` where the claim requires the sentinel `0`; moreover the hex
text `16` has value `0x16 = 22`, so `encode("16/B374D848")` is
`0x16 * 2^32 + 0xB374D848 = 97500059720`, not `16 * 2^32 + 0xB374D848` as
the claim's example states. -/
theorem lsn_encode_counterexample :
    lsn_to_xlogbyte (some "garbage") = .error .valueError ∧
    lsn_to_xlogbyte (some "16/B374D848") = .ok 97500059720 ∧
    (97500059720 : ℕ) ≠ 16 * 2 ^ 32 + 0xB374D848 :=
  ⟨by decide, by decide, by decide⟩

/-- C2 (amended): when no host in the round produced a usable `now`, the
candidate list of `max_now` is empty and Python `max` raises `ValueError`
— the aggregation step raises instead of skipping. -/
theorem aggregate_all_null_raises (pre : List MergedInfo)
    (h : ∀ li ∈ pre, li.now = none) :
    aggregate pre = .error .valueError := by
  have hempty : nowList pre = [] := by
    simp only [nowList, List.filterMap_eq_nil_iff]
    exact h
  unfold aggregate
  rw [hempty]
  rfl

/-- C2 witness: a round of two unreachable hosts raises. -/
theorem aggregate_all_null_raises_witness :
    aggregate [downMerged "10.0.0.1:5432", downMerged "10.0.0.2:5432"]
      = .error .valueError :=
  aggregate_all_null_raises _ (by decide)

/-- C2 counterexample: with a single unreachable host (null sample), the
aggregation step does not return a record list at all — it raises
`ValueError` — contradicting the claim that it skips drift aggregation and
does not raise. -/
theorem aggregate_all_null_counterexample :
    aggregate [downMerged "10.0.0.3:5432"] = .error .valueError := by decide

/-- C9 (amended): the cache guard returns the memoized value for a
non-empty mapping and for the `False` (unavailable) marker without
re-querying; a fetch failing with `OperationalError` memoizes `False`; a
successful fetch memoizes the parsed mapping; but a non-superuser call
returns `None` leaving the cache in the not-yet-tried state (nothing is
memoized), and an empty parsed mapping is falsy, so it is re-fetched by the
next call. -/
theorem recoveryconf_memo_spec (isSuper : Except PyErr Bool)
    (fileRes : Except PyErr String) :
    (∀ d, d ≠ [] →
      recoveryconf isSuper fileRes (.dict d) = .ok (.dict d, .dict d, false)) ∧
    recoveryconf isSuper fileRes .falseV = .ok (.falseV, .falseV, false) ∧
    (isSuper = .ok false →
      recoveryconf isSuper fileRes .noneV = .ok (.noneV, .noneV, false)) ∧
    (∀ content, isSuper = .ok true → fileRes = .ok content →
      recoveryconf isSuper fileRes .noneV
        = .ok (.dict (parseRC content), .dict (parseRC content), true)) ∧
    (isSuper = .ok true → fileRes = .error .operationalError →
      recoveryconf isSuper fileRes .noneV = .ok (.falseV, .falseV, true)) ∧
    (∀ content, isSuper = .ok true → fileRes = .ok content →
      recoveryconf isSuper fileRes (.dict [])
        = .ok (.dict (parseRC content), .dict (parseRC content), true)) := by
  refine ⟨?_, ?_, ?_, ?_, ?_, ?_⟩
  · intro d hd
    cases d with
    | nil => exact absurd rfl hd
    | cons x t => simp [recoveryconf, rcTruthy]
  · simp [recoveryconf, rcTruthy]
  · intro h
    simp [recoveryconf, rcTruthy, h]
  · intro content h1 h2
    simp [recoveryconf, rcTruthy, h1, h2]
  · intro h1 h2
    simp [recoveryconf, rcTruthy, h1, h2]
  · intro content h1 h2
    simp [recoveryconf, rcTruthy, h1, h2]

/-- C9 witness: a cached `False` marker is returned without re-querying, and
a successful superuser fetch memoizes the parsed mapping with the query
actually executed. -/
theorem recoveryconf_memo_spec_witness :
    recoveryconf (.ok true) (.ok "standby_mode = on") .falseV
      = .ok (.falseV, .falseV, false) ∧
    recoveryconf (.ok true) (.ok "standby_mode = on") .noneV
      = .ok (.dict (parseRC "standby_mode = on"),
             .dict (parseRC "standby_mode = on"), true) :=
  ⟨(recoveryconf_memo_spec (.ok true) (.ok "standby_mode = on")).2.1,
   (recoveryconf_memo_spec (.ok true) (.ok "standby_mode = on")).2.2.2.1
     "standby_mode = on" rfl rfl⟩

/-- C9 counterexample: a recovery.conf with no `key = value` line parses to
the empty mapping, which the truthiness guard does not treat as cached — the
second call runs `pg_read_file` again (third component `true` twice), so the
fetch is not once-per-lifetime; and a non-superuser call leaves the cache at
`None` (not-yet-tried) instead of memoizing the unavailable marker. -/
theorem recoveryconf_memo_counterexample :
    recoveryconf (.ok true) (.ok "# empty file") .noneV
      = .ok (.dict [], .dict [], true) ∧
    recoveryconf (.ok true) (.ok "# empty file") (.dict [])
      = .ok (.dict [], .dict [], true) ∧
    recoveryconf (.ok false) (.ok "primary_conninfo = host=10.0.0.1") .noneV
      = .ok (.noneV, .noneV, false) :=
  ⟨by decide, by decide, by decide⟩

theorem pg_gsi_ok_role {env : SHEnv} {r : StandbyInfo} {ru : String × String}
    (hc : classifyRole env.isStandby env.upstream = .ok ru)
    (h : pg_get_standby_info env = .ok r) : r.role = ru.1 := by
  unfold pg_get_standby_info at h
  rw [hc] at h
  cases hf : rcFields env.rcRes with
  | error e => rw [hf] at h; cases h
  | ok v =>
    rw [hf] at h
    cases h
    rfl

/-- C3: a connection-level (`OperationalError`) failure of the
recovery-state probe produces a degraded record — `role = 'Down'`,
`upstream = ''` — and `pg_get_standby_info` returns it instead of raising;
when classification succeeds, the role is exactly one of `'master'` (the
code's name for the primary role) and `'standby'`, never both. -/
theorem get_standby_info_degrades (env : SHEnv) :
    (env.isStandby = .error .operationalError →
      env.rcRes = .error .operationalError →
      pg_get_standby_info env
        = .ok { host := env.hostid, role := "Down", upstream := "",
                recovery_conf := PyVal.b false, standby_mode := PyVal.b false,
                replication_slot := "" }) ∧
    (∀ b r, env.isStandby = .ok b →
      (b = true → ∃ u, env.upstream = .ok u) →
      pg_get_standby_info env = .ok r →
      ((r.role = "master" ∧ ¬ r.role = "standby") ∨
       (r.role = "standby" ∧ ¬ r.role = "master"))) := by
  constructor
  · intro h1 h2
    have hc : classifyRole env.isStandby env.upstream = .ok ("Down", "") := by
      rw [h1]; rfl
    have hf : rcFields env.rcRes = .ok (PyVal.b false, PyVal.b false, "") := by
      rw [h2]; rfl
    unfold pg_get_standby_info
    rw [hc, hf]
  · intro b r hb hu hr
    cases b with
    | false =>
      have hc : classifyRole env.isStandby env.upstream = .ok ("master", "") := by
        rw [hb]; rfl
      have hrole : r.role = "master" := pg_gsi_ok_role hc hr
      exact Or.inl ⟨hrole, by rw [hrole]; decide⟩
    | true =>
      obtain ⟨u, hu2⟩ := hu rfl
      have hc : classifyRole env.isStandby env.upstream = .ok ("standby", u) := by
        rw [hb, hu2]; rfl
      have hrole : r.role = "standby" := pg_gsi_ok_role hc hr
      exact Or.inr ⟨hrole, by rw [hrole]; decide⟩

/-- C3 witness: a host whose probes all raise `OperationalError` yields the
degraded record, and a healthy primary classifies as exactly `master`. -/
theorem get_standby_info_degrades_witness :
    pg_get_standby_info envDownW
      = .ok { host := some "10.0.0.9:5432", role := "Down", upstream := "",
              recovery_conf := PyVal.b false, standby_mode := PyVal.b false,
              replication_slot := "" } ∧
    ((recUpW.role = "master" ∧ ¬ recUpW.role = "standby") ∨
     (recUpW.role = "standby" ∧ ¬ recUpW.role = "master")) :=
  ⟨(get_standby_info_degrades envDownW).1 rfl rfl,
   (get_standby_info_degrades envUpW).2 false recUpW rfl
     (fun h => absurd h (by decide)) (by decide)⟩

/-- C4: with more than one host and a singleton port list, expansion
broadcasts the single port — each member connection carries that port — and
with distinct member identities, starting from an empty registry, it
registers exactly one connection per host with the broadcast port; with
multiple hosts and a multi-entry port list of a different length, the
`PGConnectionException` is raised before the registration loop, leaving the
registry exactly as it was. -/
theorem connect_expansion_spec (resolve : String → String → Option String)
    (hosts ports : List String) (p : String) (reg : Registry) :
    (1 < hosts.length → ports = [p] →
      (connectHosts resolve hosts ports reg
        = (expandLoop resolve (hosts.map (fun h => (h, p))) reg, none)) ∧
      ((hosts.map (fun h => memberId resolve h p)).Nodup →
        expandLoop resolve (hosts.map (fun h => (h, p))) []
          = hosts.map (fun h => (memberId resolve h p, { host := h, port := p })))) ∧
    (1 < hosts.length → 1 < ports.length → hosts.length ≠ ports.length →
      connectHosts resolve hosts ports reg
        = (reg, some (.exception "you cannot specify less or more ports than hosts"))) := by
  constructor
  · intro hh hp
    subst hp
    have hbp : broadcastPorts hosts [p] = hosts.map (fun _ => p) := by
      unfold broadcastPorts
      rw [if_pos ⟨hh, rfl⟩]
      rfl
    constructor
    · unfold connectHosts
      rw [hbp, if_neg (by simp), zip_const]
    · intro hnd
      have hmap : (hosts.map (fun h => (h, p))).map
          (fun pr => memberId resolve pr.1 pr.2) = hosts.map (fun h => memberId resolve h p) := by
        rw [List.map_map]
        rfl
      rw [expandLoop_fresh resolve (hosts.map (fun h => (h, p))) []
        (fun pr _ hin => by cases hin) (by rw [hmap]; exact hnd)]
      rw [List.nil_append, List.map_map]
      rfl
  · intro hh hp hne
    have hbp : broadcastPorts hosts ports = ports := by
      unfold broadcastPorts
      rw [if_neg (by omega)]
    unfold connectHosts
    rw [hbp, if_pos hne]

/-- C4 witness: `hosts = [h1, h2]`, `ports = [p1]` broadcasts `p1` and
yields two member connections with port `p1`; `ports = [p1, p2, p3]` raises
with nothing registered. -/
theorem connect_expansion_spec_witness :
    connectHosts (fun _ _ => none) ["h1", "h2"] ["p1"] []
      = (expandLoop (fun _ _ => none) (["h1", "h2"].map (fun h => (h, "p1"))) [], none) ∧
    expandLoop (fun _ _ => none) (["h1", "h2"].map (fun h => (h, "p1"))) []
      = ["h1", "h2"].map (fun h =>
          (memberId (fun _ _ => none) h "p1", { host := h, port := "p1" })) ∧
    connectHosts (fun _ _ => none) ["h1", "h2"] ["p1", "p2", "p3"] []
      = ([], some (.exception "you cannot specify less or more ports than hosts")) := by
  have t1 := (connect_expansion_spec (fun _ _ => none) ["h1", "h2"] ["p1"] "p1" []).1
    (by decide) rfl
  have t2 := (connect_expansion_spec (fun _ _ => none) ["h1", "h2"]
    ["p1", "p2", "p3"] "p1" []).2 (by decide) (by decide) (by decide)
  exact ⟨t1.1, t1.2 (by decide), t2⟩

/-- C5: throughout the registration loop the registry keys stay free of
duplicates (each member identity maps to at most one connection), an
identity already registered keeps its first-registered connection unchanged
through any further expansion, and registering a colliding identity
discards the new connection, returning the registry unchanged. -/
theorem connect_registry_idempotent (resolve : String → String → Option String)
    (pairs : List (String × String)) (reg : Registry) :
    ((regKeys reg).Nodup → (regKeys (expandLoop resolve pairs reg)).Nodup) ∧
    (∀ id c, regFind reg id = some c →
      regFind (expandLoop resolve pairs reg) id = some c) ∧
    (∀ id c, id ∈ regKeys reg → registerConn reg id c = reg) :=
  ⟨(expandLoop_nodup_find resolve pairs reg).1,
   (expandLoop_nodup_find resolve pairs reg).2,
   fun _ c h => by unfold registerConn; rw [if_pos h]⟩

/-- C5 witness: expanding `a:1` (already registered) and `b:2` over a
one-entry registry keeps the keys duplicate-free, keeps the original
connection for `a:1`, and a colliding registration returns the registry
unchanged. -/
theorem connect_registry_idempotent_witness :
    (regKeys (expandLoop (fun _ _ => none) [("a", "1"), ("b", "2")] regW)).Nodup ∧
    regFind (expandLoop (fun _ _ => none) [("a", "1"), ("b", "2")] regW) "a:1"
      = some { host := "a", port := "1" } ∧
    registerConn regW "a:1" { host := "x", port := "9" } = regW := by
  have t := connect_registry_idempotent (fun _ _ => none) [("a", "1"), ("b", "2")] regW
  exact ⟨t.1 (by decide), t.2.1 "a:1" { host := "a", port := "1" } (by decide),
         t.2.2 "a:1" { host := "x", port := "9" } (by decide)⟩

/-- C1 (amended): in a round with at least one non-null `now` and at least
one non-zero absolute LSN offset, aggregation succeeds; `max_now` and
`max_lsn` are the maxima of the respective candidate lists; every host with
a non-null `now` gets `drift = max_now - now` (null otherwise); every host
with a non-zero offset gets `lag_mb = round((max_lsn - lsn)/2^20, 2)`,
while a zero offset — a null sample, a null LSN text, or an LSN encoding to
0 — gets the `'?'` sentinel; and appending one failed (null-sample) host
changes no other host's derived fields. -/
theorem aggregate_round_spec (pre : List MergedInfo)
    (h1 : ∃ r ∈ pre, r.now ≠ none) (h2 : ∃ r ∈ pre, r.lsn_int ≠ 0) :
    ∃ maxNow maxLsn,
      pyMax (nowList pre) = .ok maxNow ∧
      pyMax (lsnList pre) = .ok maxLsn ∧
      maxNow ∈ nowList pre ∧ (∀ x ∈ nowList pre, x ≤ maxNow) ∧
      maxLsn ∈ lsnList pre ∧ (∀ x ∈ lsnList pre, x ≤ maxLsn) ∧
      aggregate pre = .ok (pre.map (mkAgg maxNow maxLsn)) ∧
      (∀ li : MergedInfo, (mkAgg maxNow maxLsn li).drift
        = li.now.map (fun n => maxNow - n)) ∧
      (∀ li : MergedInfo, li.lsn_int ≠ 0 → (mkAgg maxNow maxLsn li).lag_mb
        = LagMB.mb (pyRound (((maxLsn : ℚ) - (li.lsn_int : ℚ)) / 2 ^ 20) 2)) ∧
      (∀ li : MergedInfo, li.lsn_int = 0 →
        (mkAgg maxNow maxLsn li).lag_mb = LagMB.unknown) ∧
      (∀ nullr : MergedInfo, nullr.now = none → nullr.lsn_int = 0 →
        aggregate (pre ++ [nullr])
          = .ok ((pre ++ [nullr]).map (mkAgg maxNow maxLsn))) := by
  obtain ⟨r1, hr1, hn1⟩ := h1
  obtain ⟨x1, hx1⟩ := Option.ne_none_iff_exists'.mp hn1
  have hm1 : x1 ∈ nowList pre := List.mem_filterMap.mpr ⟨r1, hr1, hx1⟩
  obtain ⟨maxNow, hN⟩ := pyMax_ok_of_ne_nil
    (l := nowList pre) (by intro hc; rw [hc] at hm1; cases hm1)
  obtain ⟨r2, hr2, hz2⟩ := h2
  have hm2 : r2.lsn_int ∈ lsnList pre :=
    List.mem_filterMap.mpr ⟨r2, hr2, by rw [if_pos hz2]⟩
  obtain ⟨maxLsn, hL⟩ := pyMax_ok_of_ne_nil
    (l := lsnList pre) (by intro hc; rw [hc] at hm2; cases hm2)
  obtain ⟨hNmem, hNub⟩ := pyMax_ok hN
  obtain ⟨hLmem, hLub⟩ := pyMax_ok hL
  refine ⟨maxNow, maxLsn, hN, hL, hNmem, hNub, hLmem, hLub, ?_,
    fun li => rfl, ?_, ?_, ?_⟩
  · unfold aggregate
    rw [hN, hL]
  · intro li hli
    simp [mkAgg, hli]
  · intro li hli
    simp [mkAgg, hli]
  · intro nullr hn hz
    unfold aggregate
    rw [nowList_append_null hn, lsnList_append_null hz, hN, hL]

/-- C1 witness: a healthy two-host round aggregates to the mapped records. -/
theorem aggregate_round_spec_witness :
    ∃ maxNow maxLsn, aggregate aggPreW = .ok (aggPreW.map (mkAgg maxNow maxLsn)) := by
  obtain ⟨mN, mL, _, _, _, _, _, _, hagg, _⟩ :=
    aggregate_round_spec aggPreW (by decide) (by decide)
  exact ⟨mN, mL, hagg⟩

/-- C1 counterexample: the second host returns the non-null, well-formed
LSN `0/0`, which encodes to offset 0; the claim requires it to receive a
numeric `lag_mb`, but aggregation assigns the `'?'` sentinel (the
truthiness filter `if li['lsn_int']` drops offset 0), even though the
host's sample is not null. -/
theorem aggregate_zero_lsn_counterexample :
    lsn_to_xlogbyte (some "0/0") = .ok 0 ∧
    aggCexPre.map (fun li => li.lsn) = [some "0/1", some "0/0"] ∧
    aggCexPre.map (fun li => li.now.isSome) = [true, true] ∧
    (aggregate aggCexPre).toOption.map (fun recs => recs.map (fun a => isUnknown a.lag_mb))
      = some [false, true] :=
  ⟨by decide, by decide, by decide, by decide⟩

/-- C10: the valid LSN text `0/0` encodes to absolute offset 0, which is
the same value as the unknown-LSN sentinel, so aggregation cannot
distinguish the two: an offset of 0 never appears in the `max_lsn`
candidate list, the aggregation inputs are unchanged if the host's LSN text
is replaced by null, its per-record `lag_mb` is the `'?'` sentinel for any
maxima, and in a successful round the record at that position carries
`'?'`. -/
theorem zero_lsn_as_unknown (pre : List MergedInfo) (i : ℕ) (hi : i < pre.length)
    (hz : (pre.get ⟨i, hi⟩).lsn_int = 0) :
    lsn_to_xlogbyte (some "0/0") = .ok 0 ∧
    (∀ x ∈ lsnList pre, x ≠ (pre.get ⟨i, hi⟩).lsn_int) ∧
    nowList (pre.set i { pre.get ⟨i, hi⟩ with lsn := none }) = nowList pre ∧
    lsnList (pre.set i { pre.get ⟨i, hi⟩ with lsn := none }) = lsnList pre ∧
    (∀ maxNow maxLsn, (mkAgg maxNow maxLsn (pre.get ⟨i, hi⟩)).lag_mb = LagMB.unknown) ∧
    (∀ recs, aggregate pre = .ok recs →
      (recs.get? i).map (fun a => a.lag_mb) = some LagMB.unknown) := by
  refine ⟨by decide, ?_, ?_, ?_, ?_, ?_⟩
  · intro x hx
    rw [hz]
    exact lsnList_mem_ne_zero hx
  · exact filterMap_set _ pre i _ (fun hi2 => rfl)
  · exact filterMap_set _ pre i _ (fun hi2 => rfl)
  · intro maxNow maxLsn
    have hz2 : pre[i].lsn_int = 0 := hz
    simp [mkAgg, hz2]
  · intro recs hrec
    obtain ⟨mN, mL, hN, hL, hmap⟩ := aggregate_ok_elim hrec
    subst hmap
    have hz2 : pre[i].lsn_int = 0 := hz
    rw [List.get?_map, List.get?_eq_get hi]
    simp [mkAgg, hz2]

/-- C10 witness: in a concrete round whose second host sampled `0/0`, that
host's `lag_mb` is the sentinel and the candidate list excludes offset 0. -/
theorem zero_lsn_as_unknown_witness :
    nowList (zeroPreW.set 1 { zeroPreW.get ⟨1, by decide⟩ with lsn := none })
      = nowList zeroPreW ∧
    lsnList (zeroPreW.set 1 { zeroPreW.get ⟨1, by decide⟩ with lsn := none })
      = lsnList zeroPreW :=
  ⟨(zero_lsn_as_unknown zeroPreW 1 (by decide) (by decide)).2.2.1,
   (zero_lsn_as_unknown zeroPreW 1 (by decide) (by decide)).2.2.2.1⟩

/-- C8: on a connection's first-ever successful sample the retained pair is
absent, `wal_sec` is 0 and the new `(absolute LSN, wall clock)` pair is
stored; on every later successful sample `wal_sec` is
`round((new_lsn - prev_lsn)/(new_clock - prev_clock)/2^20, 3)` computed
against the retained pair, which is then overwritten; a cycle in which the
host is unreachable or the query returns no row leaves the retained pair
untouched, so the next successful sample spans the whole interval since the
previous successful one. -/
theorem wal_sec_spec (r : SampleRow) (epoch : ℚ) (n : ℕ)
    (henc : lsn_to_xlogbyte r.lsn = .ok n) :
    current_time_lag_lsn true (some r) epoch none
      = .ok ({ now := some r.now, lsn := r.lsn, lsn_int := n,
               lag_sec := some r.lag_sec, wal_sec := 0 }, some (n, epoch)) ∧
    (∀ p t0, ¬ epoch = t0 →
      current_time_lag_lsn true (some r) epoch (some (p, t0))
        = .ok ({ now := some r.now, lsn := r.lsn, lsn_int := n,
                 lag_sec := some r.lag_sec,
                 wal_sec := pyRound (((n : ℚ) - (p : ℚ)) / (epoch - t0) / 2 ^ 20) 3 },
               some (n, epoch))) ∧
    (∀ st, current_time_lag_lsn false (some r) epoch st = .ok (nullTLL, st)) ∧
    (∀ st, current_time_lag_lsn true none epoch st = .ok (nullTLL, st)) := by
  refine ⟨?_, ?_, fun st => rfl, fun st => rfl⟩
  · have h0 : current_time_lag_lsn true (some r) epoch none
        = match lsn_to_xlogbyte r.lsn with
          | .error e => .error e
          | .ok newlsn =>
            .ok ({ now := some r.now, lsn := r.lsn, lsn_int := newlsn,
                   lag_sec := some r.lag_sec, wal_sec := 0 },
                 some (newlsn, epoch)) := rfl
    rw [h0, henc]
  · intro p t0 hne
    have h0 : current_time_lag_lsn true (some r) epoch (some (p, t0))
        = match lsn_to_xlogbyte r.lsn with
          | .error e => .error e
          | .ok newlsn =>
            if epoch = t0 then .error .zeroDivisionError
            else
              .ok ({ now := some r.now, lsn := r.lsn, lsn_int := newlsn,
                     lag_sec := some r.lag_sec,
                     wal_sec := pyRound (((newlsn : ℚ) - (p : ℚ)) /
                       (epoch - t0) / 2 ^ 20) 3 },
                   some (newlsn, epoch)) := rfl
    rw [h0, henc]
    simp [hne]

/-- C8 witness: first sample stores `(256, 10)` with `wal_sec = 0`; the
next sample against retained pair `(0, 5)` computes the rate formula and
overwrites the pair; unreachable cycles leave a retained pair unchanged. -/
theorem wal_sec_spec_witness :
    current_time_lag_lsn true (some { now := 0, lsn := some "0/100", lag_sec := 0 }) 10 none
      = .ok ({ now := some 0, lsn := some "0/100", lsn_int := 256,
               lag_sec := some 0, wal_sec := 0 }, some (256, 10)) ∧
    current_time_lag_lsn true (some { now := 7, lsn := some "0/100", lag_sec := 0 }) 10
        (some (0, 5))
      = .ok ({ now := some 7, lsn := some "0/100", lsn_int := 256,
               lag_sec := some 0,
               wal_sec := pyRound ((((256 : ℕ) : ℚ) - ((0 : ℕ) : ℚ)) /
                 (10 - 5) / 2 ^ 20) 3 }, some (256, 10)) ∧
    current_time_lag_lsn false (some { now := 7, lsn := some "0/100", lag_sec := 0 }) 12
        (some (256, 10))
      = .ok (nullTLL, some (256, 10)) :=
  ⟨(wal_sec_spec { now := 0, lsn := some "0/100", lag_sec := 0 } 10 256 (by decide)).1,
   (wal_sec_spec { now := 7, lsn := some "0/100", lag_sec := 0 } 10 256 (by decide)).2.1
     0 5 (by decide),
   (wal_sec_spec { now := 7, lsn := some "0/100", lag_sec := 0 } 12 256 (by decide)).2.2.1
     (some (256, 10))⟩

theorem digits00 : digitsToNat ['0', '0'] = 0 := by decide

theorem secondaryTail_nil (d1 : List Char) :
    secondaryTail d1 [] = if devTailOk [] then some (d1, none) else none := rfl

theorem secondaryTail_cons (d1 : List Char) (c : Char) (r2 : List Char) :
    secondaryTail d1 (c :: r2)
      = if c = '.' then
          (if (takeDigits r2).1 = [] then
            (if devTailOk (c :: r2) then some (d1, none) else none)
           else if devTailOk (takeDigits r2).2 then some (d1, some (takeDigits r2).1)
           else none)
        else if devTailOk (c :: r2) then some (d1, none) else none := rfl

theorem primaryTail_cons (d1 : List Char) (c : Char) (r2 : List Char) :
    primaryTail d1 (c :: r2)
      = if c = '.' then
          (if (takeDigits r2).1 = [] then none
           else some (d1, (takeDigits r2).1, primaryPatch (takeDigits r2).2))
        else none := rfl

theorem len00 : (['0', '0'] : List Char).length = 2 := rfl

theorem secondaryTail_shape {d1 r1 d : List Char} {m : Option (List Char)}
    (h : secondaryTail d1 r1 = some (d, m)) :
    m = none ∨ ∃ r2, r1 = '.' :: r2 ∧ (takeDigits r2).1 ≠ []
      ∧ m = some (takeDigits r2).1 := by
  cases r1 with
  | nil =>
    rw [secondaryTail_nil] at h
    split at h
    · cases h
      exact Or.inl rfl
    · cases h
  | cons c r2 =>
    rw [secondaryTail_cons] at h
    by_cases hc : c = '.'
    · rw [if_pos hc] at h
      by_cases hd2 : (takeDigits r2).1 = []
      · rw [if_pos hd2] at h
        split at h
        · cases h
          exact Or.inl rfl
        · cases h
      · rw [if_neg hd2] at h
        split at h
        · cases h
          exact Or.inr ⟨r2, by rw [hc], hd2, rfl⟩
        · cases h
    · rw [if_neg hc] at h
      split at h
      · cases h
        exact Or.inl rfl
      · cases h

theorem parseSecondary_elim {s d1 : List Char} {m : Option (List Char)}
    (hs : parseSecondary s = some (d1, m)) :
    ∃ r0, pgNameRest s = some r0 ∧ (takeDigits r0).1 ≠ [] ∧
      secondaryTail (takeDigits r0).1 (takeDigits r0).2 = some (d1, m) := by
  unfold parseSecondary at hs
  cases hn : pgNameRest s with
  | none =>
    rw [hn, Option.none_bind] at hs
    cases hs
  | some r0 =>
    rw [hn, Option.some_bind] at hs
    unfold secondaryAfterName at hs
    by_cases he1 : (takeDigits r0).1 = []
    · rw [if_pos he1] at hs
      cases hs
    · rw [if_neg he1] at hs
      exact ⟨r0, rfl, he1, hs⟩

theorem parsePrimary_of_minor {s r0 r2 : List Char}
    (hn : pgNameRest s = some r0) (h1 : (takeDigits r0).1 ≠ [])
    (h2 : (takeDigits r0).2 = '.' :: r2) (h3 : (takeDigits r2).1 ≠ []) :
    parsePrimary s
      = some ((takeDigits r0).1, (takeDigits r2).1,
              primaryPatch (takeDigits r2).2) := by
  unfold parsePrimary
  rw [hn, Option.some_bind]
  unfold primaryAfterName
  rw [if_neg h1, h2, primaryTail_cons, if_pos rfl, if_neg h3]

/-- C7 (amended): a string matched by the release pattern with canonically
written minor and patch (no leading zeros, at most two digits) yields the
numeric version `major * 10000 + minor * 100 + patch`, patch defaulting to
0 when the group is absent — the code pads a component by prepending `0`
exactly when its integer value is below 10, which equals two-digit padding
only for canonically written components; a string reaching the development
pattern can never carry a minor group (the release pattern would already
have matched), so its numeric version is `major * 10000` with minor and
patch forced to `00`; when neither pattern matches, the code raises. -/
theorem num_version_spec (s : String) :
    (∀ d1 d2 d3, parsePrimary s.data = some (d1, d2, some d3) →
      canonComp d2 → canonComp d3 →
      get_num_version s
        = .ok (digitsToNat d1 * 10000 + digitsToNat d2 * 100 + digitsToNat d3)) ∧
    (∀ d1 d2, parsePrimary s.data = some (d1, d2, none) → canonComp d2 →
      get_num_version s = .ok (digitsToNat d1 * 10000 + digitsToNat d2 * 100)) ∧
    (∀ d1 m, parsePrimary s.data = none → parseSecondary s.data = some (d1, m) →
      m = none ∧ get_num_version s = .ok (digitsToNat d1 * 10000)) ∧
    (parsePrimary s.data = none → parseSecondary s.data = none →
      get_num_version s = .error (.exception "Undefined PostgreSQL version.")) := by
  refine ⟨?_, ?_, ?_, ?_⟩
  · intro d1 d2 d3 hp hc2 hc3
    obtain ⟨hl2, hv2, hb2⟩ := padComponent_canon hc2
    obtain ⟨hl3, hv3, hb3⟩ := padComponent_canon hc3
    unfold get_num_version
    rw [hp]
    show Except.ok (digitsToNat (d1 ++ padComponent d2 ++ padComponent d3))
      = Except.ok (digitsToNat d1 * 10000 + digitsToNat d2 * 100 + digitsToNat d3)
    rw [digitsToNat_append, digitsToNat_append, hl2, hl3, hv2, hv3]
    congr 1
    ring
  · intro d1 d2 hp hc2
    obtain ⟨hl2, hv2, hb2⟩ := padComponent_canon hc2
    unfold get_num_version
    rw [hp]
    show Except.ok (digitsToNat (d1 ++ padComponent d2 ++ ['0', '0']))
      = Except.ok (digitsToNat d1 * 10000 + digitsToNat d2 * 100)
    rw [digitsToNat_append, digitsToNat_append, hl2, len00, hv2, digits00]
    congr 1
    ring
  · intro d1 m hp hs
    obtain ⟨r0, hn, he1, hst⟩ := parseSecondary_elim hs
    rcases secondaryTail_shape hst with hm | ⟨r2, hr2, hd2, hm⟩
    · subst hm
      refine ⟨rfl, ?_⟩
      unfold get_num_version
      rw [hp, hs]
      show Except.ok (digitsToNat (d1 ++ ['0', '0'] ++ ['0', '0']))
        = Except.ok (digitsToNat d1 * 10000)
      rw [digitsToNat_append, digitsToNat_append, len00, digits00]
      congr 1
      ring
    · exfalso
      have hsome := parsePrimary_of_minor hn he1 hr2 hd2
      rw [hp] at hsome
      cases hsome
  · intro hp hs
    unfold get_num_version
    rw [hp, hs]

/-- C7 witness: `PostgreSQL 12.3` parses through the release pattern to
`12 * 10000 + 3 * 100`, and `PostgreSQL 13devel` through the development
pattern to `13 * 10000`. -/
theorem num_version_spec_witness :
    get_num_version "PostgreSQL 12.3" = .ok 120300 ∧
    get_num_version "PostgreSQL 13devel" = .ok 130000 :=
  ⟨(num_version_spec "PostgreSQL 12.3").2.1 ['1', '2'] ['3'] (by decide) (by decide),
   ((num_version_spec "PostgreSQL 13devel").2.2.1 ['1', '3'] none
     (by decide) (by decide)).2⟩

/-- C7 counterexample: `PostgreSQL 12.03` is matched by the release pattern
(minor text `03`), yet the code computes 1200300 — `int('03') = 3 < 10`
prepends another `0`, producing the three-character minor `003` — while the
claim's two-digit padding yields 120300. -/
theorem num_version_counterexample :
    get_num_version "PostgreSQL 12.03" = .ok 1200300 ∧ (1200300 : ℕ) ≠ 120300 :=
  ⟨by decide, by decide⟩

end PGRA
